import Mathlib

/-!
Shallow embedding of the URL-shortening service in `server.js`
(Express + better-sqlite3), together with proofs of the spec's claims.

The two SQLite tables (`urls`, `visits`) are modelled as Lean lists kept in
insertion order (SQLite scans these tables in rowid order, which is insertion
order, and none of the queries carries an ORDER BY).  Timestamps are integers
(milliseconds since the epoch); `datetime('now')` / `new Date()` comparisons
become integer comparisons.  The external WHATWG URL parser invoked by
`new URL(str)` is modelled as an oracle parameter `parseURL : String → Option
URLParts`; the random `nanoid(7)` output is likewise passed in as a parameter.
-/

namespace UrlShortener

/-- Timestamps in milliseconds since the epoch. -/
abbrev Time := Int

/-- One row of the `urls` table (`code TEXT PRIMARY KEY, long_url, created_at,
expiry_at, last_accessed, clicks`). -/
structure LinkRecord where
  code : String
  long_url : String
  created_at : Time
  expiry_at : Time
  last_accessed : Option Time
  clicks : Nat
deriving DecidableEq

/-- One row of the `visits` table (`code, ts, ip, user_agent, referrer`);
rows are appended in rowid order. -/
structure VisitEvent where
  code : String
  ts : Time
  ip : Option String
  user_agent : Option String
  referrer : Option String
deriving DecidableEq

/-- The database: both tables, each as a list in insertion (rowid) order. -/
structure DB where
  urls : List LinkRecord
  visits : List VisitEvent
deriving DecidableEq

/-- A freshly created database. -/
def DB.empty : DB := ⟨[], []⟩

/-- `SELECT * FROM urls WHERE code = ?` (the `findByCode` prepared statement). -/
def findByCode (db : DB) (code : String) : Option LinkRecord :=
  db.urls.find? (fun r => r.code == code)

/-- Result of running the `insertUrl` prepared statement: either the new
database or a UNIQUE-constraint violation (`code` is the primary key). -/
inductive InsertResult
  | ok (db : DB)
  | uniqueViolation
deriving DecidableEq

/-- `INSERT INTO urls (code, long_url, expiry_at) VALUES (...)`; `created_at`
defaults to now, `clicks` to 0, `last_accessed` to NULL.  Fails atomically on
a primary-key collision. -/
def insertUrl (db : DB) (code long_url : String) (now expiry_at : Time) :
    InsertResult :=
  if db.urls.any (fun r => r.code == code) then .uniqueViolation
  else .ok ⟨db.urls ++ [⟨code, long_url, now, expiry_at, none, 0⟩], db.visits⟩

/-- The update applied to a matching row by `updateOnVisit`:
`clicks = clicks + 1, last_accessed = datetime('now')`. -/
def bumpRecord (now : Time) (r : LinkRecord) : LinkRecord :=
  ⟨r.code, r.long_url, r.created_at, r.expiry_at, some now, r.clicks + 1⟩

/-- `UPDATE urls SET clicks = clicks + 1, last_accessed = datetime('now')
WHERE code = ?`. -/
def updateOnVisit (db : DB) (code : String) (now : Time) : DB :=
  ⟨db.urls.map (fun r => if r.code == code then bumpRecord now r else r),
   db.visits⟩

/-- `INSERT INTO visits (code, ip, user_agent, referrer) VALUES (?, ?, ?, ?)`;
`ts` defaults to now; rows append at the end of the table. -/
def insertVisit (db : DB) (code : String) (now : Time)
    (ip ua ref : Option String) : DB :=
  ⟨db.urls, db.visits ++ [⟨code, now, ip, ua, ref⟩]⟩

/-- `SELECT ts, ip, user_agent, referrer FROM visits WHERE code = ?`:
a rowid-order scan, i.e. the filter keeps insertion order. -/
def getVisits (db : DB) (code : String) : List VisitEvent :=
  db.visits.filter (fun v => v.code == code)

/-- `SELECT COUNT(DISTINCT ip) FROM visits WHERE code = ?`; SQL COUNT(DISTINCT)
ignores NULLs, so only `some` ips are counted. -/
def countUniqueIPs (db : DB) (code : String) : Nat :=
  (((getVisits db code).filterMap VisitEvent.ip).dedup).length

/-- What the embedding keeps of a parsed WHATWG URL: its `protocol`
(scheme plus trailing colon, e.g. `"http:"`). -/
structure URLParts where
  protocol : String
deriving DecidableEq

/-- `isValidHttpUrl` from server.js: `new URL(str)` in a try/catch, then
`u.protocol === 'http:' || u.protocol === 'https:'`.  The external parser is
the oracle `parseURL`; a parse exception is `none` and yields `false`. -/
def isValidHttpUrl (parseURL : String → Option URLParts) (s : String) : Bool :=
  match parseURL s with
  | some u => u.protocol == "http:" || u.protocol == "https:"
  | none => false

/-- JS `String.prototype.trim`: strip leading and trailing whitespace
(implemented by structural recursion over the character list so that the
kernel can evaluate it on literals). -/
def jsTrim (s : String) : String :=
  ⟨((s.data.dropWhile Char.isWhitespace).reverse.dropWhile
      Char.isWhitespace).reverse⟩

/-- JS `String.prototype.toLowerCase` on the characters of the string. -/
def jsToLower (s : String) : String :=
  ⟨s.data.map Char.toLower⟩

/-- `normalizeCode` from server.js: `String(input || '').trim().toLowerCase()`.
`input` is `none` when the field is absent; an empty string is falsy in JS, so
it also maps to `''` (and trims/lowercases to `''` anyway). -/
def normalizeCode (input : Option String) : String :=
  jsToLower (jsTrim (input.getD ""))

/-- `computeExpiry` from server.js: `Date.now() + minutes * 60 * 1000`. -/
def computeExpiry (now : Time) (minutes : Int) : Time :=
  now + minutes * 60 * 1000

/-- A JSON value as it may arrive in the `validity` field of the request body:
absent, null, an integer number, a non-integer number, a string, or a
boolean. -/
inductive JVal
  | absent
  | jnull
  | jint (n : Int)
  | jfrac
  | jstr (s : String)
  | jbool (b : Bool)
deriving DecidableEq

/-- `Number.isInteger(validity) && validity > 0` from the create handler. -/
def isPositiveInteger : JVal → Bool
  | .jint n => decide (0 < n)
  | _ => false

/-- The built-in default: `DEFAULT_VALIDITY = 30` minutes (overridable via
the environment, hence theorems take the default as a parameter). -/
def DEFAULT_VALIDITY : Int := 30

/-- `Number.isInteger(validity) && validity > 0 ? validity :
Number(DEFAULT_VALIDITY)` from the create handler. -/
def resolveValidity (defaultValidity : Int) : JVal → Int
  | .jint n => if 0 < n then n else defaultValidity
  | _ => defaultValidity

/-- One character of the shortcode character class `[a-zA-Z0-9-_]` from the
regex in the create handler. -/
def isCodeChar (c : Char) : Bool :=
  (decide ('a' ≤ c) && decide (c ≤ 'z')) ||
  (decide ('A' ≤ c) && decide (c ≤ 'Z')) ||
  (decide ('0' ≤ c) && decide (c ≤ '9')) ||
  c == '-' || c == '_'

/-- The anchored regex test `/^[a-zA-Z0-9-_]{4,32}$/.test(code)` from the
create handler. -/
def matchesCodeRegex (s : String) : Bool :=
  decide (4 ≤ s.data.length) && decide (s.data.length ≤ 32) &&
  s.data.all isCodeChar

/-- Modelled from the spec: one character of the pattern
`^[A-Za-z0-9_-]{4,32}$` stated in the Validator section (the spec-side
definition used to compare against the source's regex). -/
def specAllowedChar (c : Char) : Bool :=
  (decide ('A' ≤ c) && decide (c ≤ 'Z')) ||
  (decide ('a' ≤ c) && decide (c ≤ 'z')) ||
  (decide ('0' ≤ c) && decide (c ≤ '9')) ||
  c == '_' || c == '-'

/-- Modelled from the spec: `isValidCodeSyntax(code)` is true iff the code
matches `^[A-Za-z0-9_-]{4,32}$`. -/
def specCodeSyntax (s : String) : Bool :=
  decide (4 ≤ s.data.length) && decide (s.data.length ≤ 32) &&
  s.data.all specAllowedChar

/-- The body of `POST /shorturls`: `{ url, validity?, shortcode? }`. -/
structure CreateReq where
  url : Option String
  validity : JVal
  shortcode : Option String
deriving DecidableEq

/-- Outcome of the create handler, one constructor per distinct response:
400 invalid URL, 400 bad shortcode syntax, 409 duplicate, 201 created. -/
inductive CreateResult
  | invalidUrl
  | invalidCodeSyntax
  | duplicateCode
  | created (code shortLink : String) (expiry : Time)
deriving DecidableEq

/-- The code the create handler will insert under: the normalized requested
shortcode when non-empty, else `nanoid(7).toLowerCase()` (the random nanoid
output is the parameter `gen`). -/
def chosenCode (gen : String) (shortcode : Option String) : String :=
  let c := normalizeCode shortcode
  if c = "" then jsToLower gen else c

/-- The `POST /shorturls` handler.  `parseURL` is the external URL parser,
`baseUrl` the configured BASE_URL, `defaultValidity` the configured
DEFAULT_VALIDITY, `gen` the `nanoid(7)` output drawn for this request, and
`now` the current time.  Returns the response and the resulting database. -/
def createShortLink (parseURL : String → Option URLParts) (baseUrl : String)
    (defaultValidity : Int) (gen : String) (now : Time) (req : CreateReq)
    (db : DB) : CreateResult × DB :=
  match req.url with
  | none => (.invalidUrl, db)
  | some u =>
    if u = "" then (.invalidUrl, db)
    else if isValidHttpUrl parseURL u = false then (.invalidUrl, db)
    else
      let validityMinutes := resolveValidity defaultValidity req.validity
      let expiry_at := computeExpiry now validityMinutes
      let c0 := normalizeCode req.shortcode
      if c0 ≠ "" ∧ matchesCodeRegex c0 = false then (.invalidCodeSyntax, db)
      else
        let code := if c0 = "" then jsToLower gen else c0
        match insertUrl db code u now expiry_at with
        | .uniqueViolation => (.duplicateCode, db)
        | .ok db2 => (.created code (baseUrl ++ "/" ++ code) expiry_at, db2)

/-- Visitor context captured from the request at redirect time:
`req.ip`, `req.headers['user-agent'] || null`, `req.headers['referer'] ||
null`. -/
structure VisitCtx where
  ip : Option String
  userAgent : Option String
  referrer : Option String
deriving DecidableEq

/-- Outcome of the redirect handler: 404 not found, 410 expired, an uncaught
storage exception (Express answers 500), or the redirect itself. -/
inductive RedirectResult
  | notFound
  | expired
  | serverError
  | redirect (location : String)
deriving DecidableEq

/-- The `GET /:code` handler.  `updateFails` / `insertFails` say whether the
`updateOnVisit.run` / `insertVisit.run` statement throws a storage error; the
handler wraps neither in a try/catch, so a throw escapes to Express before
`res.redirect` runs. -/
def resolveAndRecord (db : DB) (now : Time) (rawCode : String) (ctx : VisitCtx)
    (updateFails insertFails : Bool) : RedirectResult × DB :=
  let code := normalizeCode (some rawCode)
  match findByCode db code with
  | none => (.notFound, db)
  | some row =>
    if row.expiry_at < now then (.expired, db)
    else if updateFails then (.serverError, db)
    else
      let db1 := updateOnVisit db code now
      if insertFails then (.serverError, db1)
      else (.redirect row.long_url,
            insertVisit db1 code now ctx.ip ctx.userAgent ctx.referrer)

/-- The JSON body of `GET /shorturls/:code`. -/
structure StatsSummary where
  code : String
  longUrl : String
  createdAt : Time
  expiryAt : Time
  totalClicks : Nat
  uniqueVisitors : Nat
  detailedClicks : List VisitEvent
deriving DecidableEq

/-- The `GET /shorturls/:code` handler: a pure read (`findByCode`, `getVisits`,
`countUniqueIPs` are all SELECTs); `none` is the 404 response. -/
def getStats (db : DB) (rawCode : String) : Option StatsSummary :=
  let code := normalizeCode (some rawCode)
  match findByCode db code with
  | none => none
  | some row =>
    some ⟨code, row.long_url, row.created_at, row.expiry_at, row.clicks,
          countUniqueIPs db code, getVisits db code⟩

/-- A concrete, kernel-evaluable instance of the external URL-parser oracle,
used only to instantiate theorems at concrete inputs: it accepts exactly the
strings beginning with `http://` or `https://`. -/
def toyParse (s : String) : Option URLParts :=
  if ("https://".data).isPrefixOf s.data then some ⟨"https:"⟩
  else if ("http://".data).isPrefixOf s.data then some ⟨"http:"⟩
  else none

/-- C9: `isValidHttpUrl` returns `true` iff the external URL parser succeeds
on the string and the parsed scheme is `http` or `https`; every parse failure
(the `catch` arm, modelled by `none`) and every other scheme yields `false`.
The function is a total Lean function, so no exception escapes it. -/
theorem C9_isValidHttpUrl_iff (parseURL : String → Option URLParts)
    (s : String) :
    isValidHttpUrl parseURL s = true ↔
      ∃ u, parseURL s = some u ∧
        (u.protocol = "http:" ∨ u.protocol = "https:") := by
  unfold isValidHttpUrl
  cases h : parseURL s with
  | none => simp
  | some u =>
    simp only [Bool.or_eq_true, beq_iff_eq, Option.some.injEq]
    constructor
    · intro hu
      exact ⟨u, rfl, hu⟩
    · rintro ⟨w, hw, hp⟩
      cases hw
      exact hp

/-- Each character class test of the source regex agrees with the character
class of the spec pattern. -/
theorem isCodeChar_eq_specAllowedChar (c : Char) :
    isCodeChar c = specAllowedChar c := by
  rw [Bool.eq_iff_iff]
  unfold isCodeChar specAllowedChar
  simp only [Bool.or_eq_true, Bool.and_eq_true, decide_eq_true_eq, beq_iff_eq]
  tauto

/-- C8: the create handler's shortcode regex accepts a string iff it matches
the spec pattern `^[A-Za-z0-9_-]{4,32}$`; in particular `"ab"` is rejected,
`"valid-code_1"` is accepted, and `"bad code!"` is rejected. -/
theorem C8_code_syntax :
    (∀ s, matchesCodeRegex s = specCodeSyntax s) ∧
    matchesCodeRegex "ab" = false ∧
    matchesCodeRegex "valid-code_1" = true ∧
    matchesCodeRegex "bad code!" = false := by
  refine ⟨?_, by decide, by decide, by decide⟩
  intro s
  unfold matchesCodeRegex specCodeSyntax
  rw [funext isCodeChar_eq_specAllowedChar]

/-- C2: a lookup of a record whose expiry lies strictly in the past answers
410 Expired and leaves the database untouched: no visit row is appended, no
clicks increment happens, and `last_accessed` keeps its old value. -/
theorem C2_expired_rejected (db : DB) (now : Time) (raw : String)
    (ctx : VisitCtx) (f1 f2 : Bool) (row : LinkRecord)
    (hfind : findByCode db (normalizeCode (some raw)) = some row)
    (hexp : row.expiry_at < now) :
    resolveAndRecord db now raw ctx f1 f2 = (.expired, db) := by
  simp only [resolveAndRecord]
  rw [hfind]
  simp [hexp]

/-- Concrete database for the C2 witness: one record that expired at time
10. -/
def dbC2 : DB := ⟨[⟨"abcd", "https://example.com", 0, 10, none, 0⟩], []⟩

/-- Witness for C2 at a concrete expired record. -/
theorem C2_expired_rejected_witness :
    findByCode dbC2 (normalizeCode (some "abcd")) =
      some ⟨"abcd", "https://example.com", 0, 10, none, 0⟩ ∧
    (10 : Time) < 20 ∧
    resolveAndRecord dbC2 20 "abcd" ⟨none, none, none⟩ false false =
      (.expired, dbC2) :=
  ⟨by decide, by decide,
   C2_expired_rejected dbC2 20 "abcd" ⟨none, none, none⟩ false false
     ⟨"abcd", "https://example.com", 0, 10, none, 0⟩ (by decide) (by decide)⟩

/-- C6: for a code absent from the store, the redirect handler answers 404
and leaves the database unchanged, and the statistics handler answers 404;
the statistics handler is a pure read by construction. -/
theorem C6_notFound (db : DB) (now : Time) (raw : String) (ctx : VisitCtx)
    (f1 f2 : Bool)
    (hfind : findByCode db (normalizeCode (some raw)) = none) :
    resolveAndRecord db now raw ctx f1 f2 = (.notFound, db) ∧
    getStats db raw = none := by
  constructor
  · simp only [resolveAndRecord]
    rw [hfind]
  · simp only [getStats]
    rw [hfind]

/-- Witness for C6 on the empty database. -/
theorem C6_notFound_witness :
    findByCode DB.empty (normalizeCode (some "nope")) = none ∧
    resolveAndRecord DB.empty 0 "nope" ⟨none, none, none⟩ false false =
      (.notFound, DB.empty) ∧
    getStats DB.empty "nope" = none := by
  refine ⟨by decide, ?_, ?_⟩
  · exact (C6_notFound DB.empty 0 "nope" ⟨none, none, none⟩ false false
      (by decide)).1
  · exact (C6_notFound DB.empty 0 "nope" ⟨none, none, none⟩ false false
      (by decide)).2

/-- C10: when `validity` is present but is not a positive integer (null, zero,
negative, fractional, string, boolean), the create handler does not reject
the request: it behaves exactly as if `validity` had been omitted, computing
the expiry from the configured default (which is 30 minutes unless
overridden). -/
theorem C10_invalid_validity_defaults
    (parseURL : String → Option URLParts) (baseUrl : String) (defV : Int)
    (gen : String) (now : Time) (url : Option String) (sc : Option String)
    (db : DB) (v : JVal) (hv : isPositiveInteger v = false) :
    createShortLink parseURL baseUrl defV gen now ⟨url, v, sc⟩ db =
      createShortLink parseURL baseUrl defV gen now ⟨url, .absent, sc⟩ db ∧
    resolveValidity defV v = defV ∧ DEFAULT_VALIDITY = 30 := by
  have hres : resolveValidity defV v = defV := by
    cases v <;> simp_all [resolveValidity, isPositiveInteger]
  refine ⟨?_, hres, rfl⟩
  have h2 : resolveValidity defV v = resolveValidity defV .absent := hres
  simp only [createShortLink]
  rw [h2]

/-- Witness for C10: a fractional `validity` gives the same outcome as an
omitted one. -/
theorem C10_invalid_validity_defaults_witness :
    isPositiveInteger .jfrac = false ∧
    createShortLink toyParse "http://sho.rt" 30 "AbCdEfG" 0
        ⟨some "https://example.com", .jfrac, none⟩ DB.empty =
      createShortLink toyParse "http://sho.rt" 30 "AbCdEfG" 0
        ⟨some "https://example.com", .absent, none⟩ DB.empty ∧
    resolveValidity 30 .jfrac = 30 ∧ DEFAULT_VALIDITY = 30 :=
  ⟨by decide,
   (C10_invalid_validity_defaults toyParse "http://sho.rt" 30 "AbCdEfG" 0
      (some "https://example.com") none DB.empty .jfrac (by decide))⟩

/-- Concrete database for C4: one live record (expires at time 1000000). -/
def dbC4 : DB := ⟨[⟨"abcd", "https://example.com/page", 0, 1000000, none, 0⟩], []⟩

/-- C4 as stated fails on the code: there is no try/catch around
`updateOnVisit.run` / `insertVisit.run`, so a storage error thrown while
recording analytics escapes to Express and the redirect is never served.
Concretely, with a live record and a failing counter update the handler's
response is not the redirect. -/
theorem C4_counterexample :
    ¬ (resolveAndRecord dbC4 5 "abcd" ⟨none, none, none⟩ true false).1 =
        RedirectResult.redirect "https://example.com/page" := by decide

/-- C4 amended: for a live record, a storage error thrown while recording
analytics aborts the request with an uncaught exception (a 500 response)
instead of serving the redirect; a failure of the clicks update leaves the
database unchanged, while a failure of the ledger append leaves the clicks
update already applied. -/
theorem C4_amended_storage_error_aborts (db : DB) (now : Time) (raw : String)
    (ctx : VisitCtx) (row : LinkRecord)
    (hfind : findByCode db (normalizeCode (some raw)) = some row)
    (hexp : ¬ row.expiry_at < now) :
    resolveAndRecord db now raw ctx true false = (.serverError, db) ∧
    resolveAndRecord db now raw ctx false true =
      (.serverError, updateOnVisit db (normalizeCode (some raw)) now) := by
  constructor <;>
  · simp only [resolveAndRecord]
    rw [hfind]
    simp [hexp]

/-- Witness for the amended C4 at the concrete live record. -/
theorem C4_amended_witness :
    findByCode dbC4 (normalizeCode (some "abcd")) =
      some ⟨"abcd", "https://example.com/page", 0, 1000000, none, 0⟩ ∧
    resolveAndRecord dbC4 5 "abcd" ⟨none, none, none⟩ true false =
      (.serverError, dbC4) ∧
    resolveAndRecord dbC4 5 "abcd" ⟨none, none, none⟩ false true =
      (.serverError, updateOnVisit dbC4 (normalizeCode (some "abcd")) 5) :=
  ⟨by decide,
   C4_amended_storage_error_aborts dbC4 5 "abcd" ⟨none, none, none⟩
     ⟨"abcd", "https://example.com/page", 0, 1000000, none, 0⟩
     (by decide) (by decide)⟩

/-- A successful `find?` makes `any` with the same predicate succeed. -/
theorem any_of_find?_some {α : Type} (p : α → Bool) :
    ∀ (l : List α) (a : α), l.find? p = some a → l.any p = true := by
  intro l
  induction l with
  | nil => intro a h; simp [List.find?] at h
  | cons x xs ih =>
    intro a h
    by_cases hx : p x = true
    · simp [List.any_cons, hx]
    · rw [List.find?] at h
      rw [Bool.not_eq_true] at hx
      rw [hx] at h
      simp [List.any_cons, hx, ih a h]

/-- A code found in the store makes the primary-key existence test of
`insertUrl` fire. -/
theorem findByCode_some_imp_any (db : DB) (code : String) (r : LinkRecord)
    (h : findByCode db code = some r) :
    db.urls.any (fun x => x.code == code) = true := by
  unfold findByCode at h
  exact any_of_find?_some _ db.urls r h

/-- A code absent from the store passes the primary-key existence test of
`insertUrl`. -/
theorem findByCode_none_imp_any_false (db : DB) (code : String)
    (h : findByCode db code = none) :
    db.urls.any (fun x => x.code == code) = false := by
  unfold findByCode at h
  exact List.any_eq_false.mpr (fun x hx => by
    simpa using List.find?_eq_none.mp h x hx)

/-- C3: a create request whose explicit shortcode already names a record
fails with 409 DuplicateCode and performs no write at all: the database
(hence the first record, its longUrl, createdAt, expiryAt and clicks) is
returned unchanged. -/
theorem C3_duplicate_shortcode
    (parseURL : String → Option URLParts) (baseUrl : String) (defV : Int)
    (gen : String) (now : Time) (db : DB) (u : String) (v : JVal)
    (sc : String) (r : LinkRecord)
    (hne : u ≠ "")
    (hu : isValidHttpUrl parseURL u = true)
    (hc : normalizeCode (some sc) ≠ "")
    (hsyn : matchesCodeRegex (normalizeCode (some sc)) = true)
    (hdup : findByCode db (normalizeCode (some sc)) = some r) :
    createShortLink parseURL baseUrl defV gen now ⟨some u, v, some sc⟩ db =
      (.duplicateCode, db) := by
  have hany := findByCode_some_imp_any db _ r hdup
  simp [createShortLink, insertUrl, hne, hu, hc, hsyn, hany]

/-- Witness for C3: re-creating the live code of `dbC4` is refused without a
write. -/
theorem C3_duplicate_shortcode_witness :
    ("https://other.org" : String) ≠ "" ∧
    isValidHttpUrl toyParse "https://other.org" = true ∧
    normalizeCode (some "AbCd") ≠ "" ∧
    matchesCodeRegex (normalizeCode (some "AbCd")) = true ∧
    findByCode dbC4 (normalizeCode (some "AbCd")) =
      some ⟨"abcd", "https://example.com/page", 0, 1000000, none, 0⟩ ∧
    createShortLink toyParse "http://sho.rt" 30 "zzzzzzz" 7
        ⟨some "https://other.org", .absent, some "AbCd"⟩ dbC4 =
      (.duplicateCode, dbC4) :=
  ⟨by decide, by decide, by decide, by decide, by decide,
   C3_duplicate_shortcode toyParse "http://sho.rt" 30 "zzzzzzz" 7 dbC4
     "https://other.org" .absent "AbCd"
     ⟨"abcd", "https://example.com/page", 0, 1000000, none, 0⟩
     (by decide) (by decide) (by decide) (by decide) (by decide)⟩

/-- A successful create: valid URL, available code, passing (or absent)
shortcode syntax; the record is appended with clicks 0 and the computed
expiry, and the 201 body carries the code and short link. -/
theorem createShortLink_success
    (parseURL : String → Option URLParts) (baseUrl : String) (defV : Int)
    (gen : String) (now : Time) (db : DB) (u : String) (v : JVal)
    (sc : Option String)
    (hne : u ≠ "") (hu : isValidHttpUrl parseURL u = true)
    (hsynOk : normalizeCode sc = "" ∨
      matchesCodeRegex (normalizeCode sc) = true)
    (hfresh : findByCode db (chosenCode gen sc) = none) :
    createShortLink parseURL baseUrl defV gen now ⟨some u, v, sc⟩ db =
      (.created (chosenCode gen sc) (baseUrl ++ "/" ++ chosenCode gen sc)
         (computeExpiry now (resolveValidity defV v)),
       ⟨db.urls ++ [⟨chosenCode gen sc, u, now,
          computeExpiry now (resolveValidity defV v), none, 0⟩],
        db.visits⟩) := by
  have hany := findByCode_none_imp_any_false db _ hfresh
  rcases hsynOk with h0 | hregex
  · rw [show chosenCode gen sc = jsToLower gen by simp [chosenCode, h0]] at hany ⊢
    simp [createShortLink, insertUrl, hne, hu, h0, hany]
  · by_cases h0 : normalizeCode sc = ""
    · rw [show chosenCode gen sc = jsToLower gen by simp [chosenCode, h0]] at hany ⊢
      simp [createShortLink, insertUrl, hne, hu, h0, hany]
    · rw [show chosenCode gen sc = normalizeCode sc by
        simp [chosenCode, h0]] at hany ⊢
      simp [createShortLink, insertUrl, hne, hu, h0, hregex, hany]

/-- Appending a record for a previously absent code makes `findByCode` return
exactly that record. -/
theorem findByCode_snoc_self (db : DB) (code : String) (r : LinkRecord)
    (hcode : r.code = code)
    (hnone : findByCode db code = none) :
    findByCode ⟨db.urls ++ [r], db.visits⟩ code = some r := by
  unfold findByCode at hnone ⊢
  rw [List.find?_append, hnone]
  simp [List.find?, hcode]

/-- C1: creating a short link for a valid http/https URL succeeds (when the
chosen code is still free) and resolving the returned code at any time before
the stored expiry redirects to exactly the original URL. -/
theorem C1_create_then_resolve
    (parseURL : String → Option URLParts) (baseUrl : String) (defV : Int)
    (gen : String) (now1 now2 : Time) (db : DB) (u : String) (v : JVal)
    (sc : Option String) (ctx : VisitCtx)
    (hparse0 : parseURL "" = none)
    (hu : isValidHttpUrl parseURL u = true)
    (hsynOk : normalizeCode sc = "" ∨
      matchesCodeRegex (normalizeCode sc) = true)
    (hfresh : findByCode db (chosenCode gen sc) = none)
    (hnorm : normalizeCode (some (chosenCode gen sc)) = chosenCode gen sc)
    (hbefore : now2 < computeExpiry now1 (resolveValidity defV v)) :
    (createShortLink parseURL baseUrl defV gen now1 ⟨some u, v, sc⟩ db).1 =
      .created (chosenCode gen sc) (baseUrl ++ "/" ++ chosenCode gen sc)
        (computeExpiry now1 (resolveValidity defV v)) ∧
    (resolveAndRecord
        (createShortLink parseURL baseUrl defV gen now1 ⟨some u, v, sc⟩ db).2
        now2 (chosenCode gen sc) ctx false false).1 =
      .redirect u := by
  have hne : u ≠ "" := by
    intro h
    rw [h] at hu
    simp [isValidHttpUrl, hparse0] at hu
  have hcreate := createShortLink_success parseURL baseUrl defV gen now1 db
    u v sc hne hu hsynOk hfresh
  rw [hcreate]
  refine ⟨rfl, ?_⟩
  have hfind2 := findByCode_snoc_self db (chosenCode gen sc)
    ⟨chosenCode gen sc, u, now1,
      computeExpiry now1 (resolveValidity defV v), none, 0⟩ rfl hfresh
  simp only [resolveAndRecord, hnorm]
  rw [hfind2]
  have hnotexp : ¬ (computeExpiry now1 (resolveValidity defV v) < now2) :=
    not_lt.mpr (le_of_lt hbefore)
  simp [hnotexp]

/-- Witness for C1: create `https://example.com/page` with a generated code
and resolve it before expiry. -/
theorem C1_create_then_resolve_witness :
    toyParse "" = none ∧
    isValidHttpUrl toyParse "https://example.com/page" = true ∧
    normalizeCode (none : Option String) = "" ∧
    findByCode DB.empty (chosenCode "AbCdEfG" none) = none ∧
    normalizeCode (some (chosenCode "AbCdEfG" none)) =
      chosenCode "AbCdEfG" none ∧
    (300000 : Time) < computeExpiry 1 (resolveValidity 30 (.jint 5)) ∧
    (createShortLink toyParse "http://sho.rt" 30 "AbCdEfG" 1
        ⟨some "https://example.com/page", .jint 5, none⟩ DB.empty).1 =
      .created (chosenCode "AbCdEfG" none)
        ("http://sho.rt" ++ "/" ++ chosenCode "AbCdEfG" none)
        (computeExpiry 1 (resolveValidity 30 (.jint 5))) ∧
    (resolveAndRecord
        (createShortLink toyParse "http://sho.rt" 30 "AbCdEfG" 1
          ⟨some "https://example.com/page", .jint 5, none⟩ DB.empty).2
        300000 (chosenCode "AbCdEfG" none) ⟨none, none, none⟩ false false).1 =
      .redirect "https://example.com/page" := by
  refine ⟨by decide, by decide, by decide, by decide, by decide, by decide,
    ?_, ?_⟩
  · exact (C1_create_then_resolve toyParse "http://sho.rt" 30 "AbCdEfG" 1
      300000 DB.empty "https://example.com/page" (.jint 5) none
      ⟨none, none, none⟩ (by decide) (by decide) (Or.inl (by decide))
      (by decide) (by decide) (by decide)).1
  · exact (C1_create_then_resolve toyParse "http://sho.rt" 30 "AbCdEfG" 1
      300000 DB.empty "https://example.com/page" (.jint 5) none
      ⟨none, none, none⟩ (by decide) (by decide) (Or.inl (by decide))
      (by decide) (by decide) (by decide)).2

/-- One request against the mutable state: a create or a redirect (the stats
route is a pure read and changes nothing). -/
inductive Op
  | create (gen : String) (req : CreateReq)
  | visit (rawCode : String) (ctx : VisitCtx) (updateFails insertFails : Bool)

/-- The database after serving one request at time `t`. -/
def stepOp (parseURL : String → Option URLParts) (baseUrl : String)
    (defV : Int) (db : DB) (t : Time) : Op → DB
  | .create gen req => (createShortLink parseURL baseUrl defV gen t req db).2
  | .visit raw ctx f1 f2 => (resolveAndRecord db t raw ctx f1 f2).2

/-- The database after serving a timestamped sequence of requests. -/
def runTrace (parseURL : String → Option URLParts) (baseUrl : String)
    (defV : Int) : DB → List (Time × Op) → DB
  | db, [] => db
  | db, e :: rest =>
    runTrace parseURL baseUrl defV (stepOp parseURL baseUrl defV db e.1 e.2)
      rest

/-- A successful insert does not touch the visits table. -/
theorem insertUrl_visits (db : DB) (code lu : String) (now exp : Time)
    (db2 : DB) (h : insertUrl db code lu now exp = .ok db2) :
    db2.visits = db.visits := by
  unfold insertUrl at h
  split at h
  · cases h
  · cases h
    rfl

/-- The create handler never touches the visits table. -/
theorem createShortLink_visits (parseURL : String → Option URLParts)
    (baseUrl : String) (defV : Int) (gen : String) (t : Time)
    (req : CreateReq) (db : DB) :
    ((createShortLink parseURL baseUrl defV gen t req db).2).visits =
      db.visits := by
  rcases req with ⟨url, v, sc⟩
  unfold createShortLink
  cases url with
  | none => rfl
  | some u =>
    dsimp only
    split
    · rfl
    · split
      · rfl
      · split
        · rfl
        · split
          · rfl
          · rename_i db2 heq
            exact insertUrl_visits _ _ _ _ _ _ heq

/-- The redirect handler either leaves the visits table unchanged or appends
exactly one event carrying the current time. -/
theorem resolveAndRecord_visits (db : DB) (t : Time) (raw : String)
    (ctx : VisitCtx) (f1 f2 : Bool) :
    ((resolveAndRecord db t raw ctx f1 f2).2).visits = db.visits ∨
    ((resolveAndRecord db t raw ctx f1 f2).2).visits =
      db.visits ++ [⟨normalizeCode (some raw), t, ctx.ip, ctx.userAgent,
        ctx.referrer⟩] := by
  cases h : findByCode db (normalizeCode (some raw)) with
  | none => left; simp [resolveAndRecord, h]
  | some row =>
    by_cases hexp : row.expiry_at < t
    · left; simp [resolveAndRecord, h, hexp]
    · cases f1 with
      | true => left; simp [resolveAndRecord, h, hexp]
      | false =>
        cases f2 with
        | true => left; simp [resolveAndRecord, h, hexp, updateOnVisit]
        | false =>
          right
          simp [resolveAndRecord, h, hexp, updateOnVisit, insertVisit]

/-- The visits table is sorted by timestamp. -/
def VisitsOrdered (db : DB) : Prop :=
  db.visits.Pairwise (fun a b => a.ts ≤ b.ts)

/-- Every visit already recorded happened at or before time `t`. -/
def VisitsBefore (db : DB) (t : Time) : Prop :=
  ∀ v ∈ db.visits, v.ts ≤ t

/-- Serving one request at the current time keeps the visits table sorted and
bounded by the current time. -/
theorem stepOp_ordered (parseURL : String → Option URLParts)
    (baseUrl : String) (defV : Int) (db : DB) (t : Time) (op : Op)
    (h1 : VisitsOrdered db) (h2 : VisitsBefore db t) :
    VisitsOrdered (stepOp parseURL baseUrl defV db t op) ∧
    VisitsBefore (stepOp parseURL baseUrl defV db t op) t := by
  cases op with
  | create gen req =>
    have hv := createShortLink_visits parseURL baseUrl defV gen t req db
    unfold VisitsOrdered at h1
    unfold VisitsBefore at h2
    unfold VisitsOrdered VisitsBefore stepOp
    rw [hv]
    exact ⟨h1, h2⟩
  | visit raw ctx f1 f2 =>
    have hv := resolveAndRecord_visits db t raw ctx f1 f2
    unfold VisitsOrdered at h1
    unfold VisitsBefore at h2
    unfold VisitsOrdered VisitsBefore stepOp
    rcases hv with hv | hv
    · rw [hv]
      exact ⟨h1, h2⟩
    · rw [hv]
      constructor
      · rw [List.pairwise_append]
        refine ⟨h1, List.pairwise_singleton _ _, ?_⟩
        intro a ha b hb
        rw [List.mem_singleton] at hb
        rw [hb]
        exact h2 a ha
      · intro v hv2
        rcases List.mem_append.mp hv2 with hm | hm
        · exact h2 v hm
        · rw [List.mem_singleton] at hm
          rw [hm]

/-- Running a trace whose request times are nondecreasing keeps the visits
table sorted by timestamp. -/
theorem runTrace_ordered (parseURL : String → Option URLParts)
    (baseUrl : String) (defV : Int) :
    ∀ (trace : List (Time × Op)) (db : DB),
    VisitsOrdered db → (∀ e ∈ trace, VisitsBefore db e.1) →
    trace.Pairwise (fun e f => e.1 ≤ f.1) →
    VisitsOrdered (runTrace parseURL baseUrl defV db trace) := by
  intro trace
  induction trace with
  | nil =>
    intro db h1 _ _
    exact h1
  | cons e rest ih =>
    intro db h1 h2 h3
    rw [List.pairwise_cons] at h3
    have hstep := stepOp_ordered parseURL baseUrl defV db e.1 e.2 h1
      (h2 e (List.mem_cons_self e rest))
    simp only [runTrace]
    exact ih (stepOp parseURL baseUrl defV db e.1 e.2) hstep.1
      (fun f hf v hv => le_trans (hstep.2 v hv) (h3.1 f hf)) h3.2

/-- On a database whose visits table is sorted, the stats body lists the
code's visits sorted by timestamp (a `WHERE` filter keeps the scan order). -/
theorem getStats_detailed_sorted (db : DB) (raw : String) (s : StatsSummary)
    (hord : VisitsOrdered db) (h : getStats db raw = some s) :
    s.detailedClicks.Pairwise (fun a b => a.ts ≤ b.ts) := by
  simp only [getStats] at h
  cases hf : findByCode db (normalizeCode (some raw)) with
  | none =>
    rw [hf] at h
    cases h
  | some row =>
    rw [hf] at h
    simp only [Option.some.injEq] at h
    rw [← h]
    exact List.Pairwise.filter _ hord

/-- C5: in every state reachable by a sequence of requests served at
nondecreasing times, the detailed click list of the stats route reports the
code's visit events in ascending timestamp order. -/
theorem C5_detailed_clicks_sorted (parseURL : String → Option URLParts)
    (baseUrl : String) (defV : Int) (trace : List (Time × Op)) (raw : String)
    (s : StatsSummary)
    (hmono : trace.Pairwise (fun e f => e.1 ≤ f.1))
    (hstats :
      getStats (runTrace parseURL baseUrl defV DB.empty trace) raw = some s) :
    s.detailedClicks.Pairwise (fun a b => a.ts ≤ b.ts) := by
  refine getStats_detailed_sorted _ raw s ?_ hstats
  refine runTrace_ordered parseURL baseUrl defV trace DB.empty ?_ ?_ hmono
  · exact List.Pairwise.nil
  · intro e _ v hv
    cases hv

/-- Concrete trace for the C5 witness: one create, then two visits. -/
def traceC5 : List (Time × Op) :=
  [(0, .create "AbCdEfG" ⟨some "https://example.com/page", .jint 60, none⟩),
   (1000, .visit "abcdefg" ⟨some "1.2.3.4", none, none⟩ false false),
   (2000, .visit "abcdefg" ⟨some "5.6.7.8", none, none⟩ false false)]

/-- The stats body the C5 witness observes. -/
def statsC5 : StatsSummary :=
  ⟨"abcdefg", "https://example.com/page", 0, 3600000, 2, 2,
   [⟨"abcdefg", 1000, some "1.2.3.4", none, none⟩,
    ⟨"abcdefg", 2000, some "5.6.7.8", none, none⟩]⟩

/-- Witness for C5 on the concrete trace. -/
theorem C5_detailed_clicks_sorted_witness :
    traceC5.Pairwise (fun e f => e.1 ≤ f.1) ∧
    getStats (runTrace toyParse "http://sho.rt" 30 DB.empty traceC5)
      "abcdefg" = some statsC5 ∧
    statsC5.detailedClicks.Pairwise (fun a b => a.ts ≤ b.ts) :=
  ⟨by decide, by decide,
   C5_detailed_clicks_sorted toyParse "http://sho.rt" 30 traceC5 "abcdefg"
     statsC5 (by decide) (by decide)⟩

/-- `find?` only answers elements satisfying the predicate. -/
theorem find?_prop {α : Type} (p : α → Bool) :
    ∀ (l : List α) (a : α), l.find? p = some a → p a = true := by
  intro l
  induction l with
  | nil =>
    intro a h
    simp [List.find?] at h
  | cons x xs ih =>
    intro a h
    rw [List.find?] at h
    cases hx : p x with
    | true =>
      rw [hx] at h
      cases h
      exact hx
    | false =>
      rw [hx] at h
      exact ih a h

/-- Looking up the visited code after `updateOnVisit` sees exactly the bumped
record. -/
theorem findByCode_updateOnVisit (db : DB) (code : String) (now : Time) :
    findByCode (updateOnVisit db code now) code =
      (findByCode db code).map (bumpRecord now) := by
  unfold findByCode updateOnVisit
  rw [List.find?_map]
  have hpf : ((fun r : LinkRecord => r.code == code) ∘
      (fun r => if r.code == code then bumpRecord now r else r)) =
      (fun r : LinkRecord => r.code == code) := by
    funext r
    by_cases h : (r.code == code) = true
    · simp [Function.comp, h, bumpRecord]
    · simp [Function.comp, h]
  rw [hpf]
  cases hf : db.urls.find? (fun r => r.code == code) with
  | none => rfl
  | some a =>
    have hp := find?_prop _ db.urls a hf
    have hcond : (if (a.code == code) = true then bumpRecord now a else a) =
        bumpRecord now a := if_pos hp
    simp [hcond]
    intro hne
    exact (hne (beq_iff_eq.mp hp)).elim

/-- The visit ledger is untouched by the clicks update. -/
theorem getVisits_updateOnVisit (db : DB) (c code : String) (now : Time) :
    getVisits (updateOnVisit db code now) c = getVisits db c := rfl

/-- Appending a visit for a code extends that code's ledger listing by
exactly that event, at the end. -/
theorem getVisits_insertVisit_self (db : DB) (code : String) (now : Time)
    (ip ua ref : Option String) :
    getVisits (insertVisit db code now ip ua ref) code =
      getVisits db code ++ [⟨code, now, ip, ua, ref⟩] := by
  unfold getVisits insertVisit
  rw [List.filter_append]
  simp

/-- The ledger append does not change the urls table. -/
theorem findByCode_insertVisit (db : DB) (code c : String) (now : Time)
    (ip ua ref : Option String) :
    findByCode (insertVisit db code now ip ua ref) c = findByCode db c := rfl

/-- A sequence of redirect requests for one fixed raw code, served in order
with no storage failures. -/
def runVisits (db : DB) (raw : String) : List (Time × VisitCtx) → DB
  | [] => db
  | e :: rest => runVisits ((resolveAndRecord db e.1 raw e.2 false false).2)
      raw rest

/-- Effect of `N` successful redirects on one live code: the record's clicks
counter grows by exactly `N`, its identity fields are untouched, and the
ledger listing for the code is extended by exactly the `N` events in request
order. -/
theorem runVisits_spec (raw : String)
    (hnorm : normalizeCode (some raw) = raw) :
    ∀ (reqs : List (Time × VisitCtx)) (db : DB) (r : LinkRecord),
    findByCode db raw = some r →
    (∀ e ∈ reqs, ¬ r.expiry_at < e.1) →
    ∃ r2, findByCode (runVisits db raw reqs) raw = some r2 ∧
      r2.clicks = r.clicks + reqs.length ∧
      r2.long_url = r.long_url ∧
      r2.created_at = r.created_at ∧
      r2.expiry_at = r.expiry_at ∧
      getVisits (runVisits db raw reqs) raw =
        getVisits db raw ++
          reqs.map (fun e =>
            ⟨raw, e.1, e.2.ip, e.2.userAgent, e.2.referrer⟩) := by
  intro reqs
  induction reqs with
  | nil =>
    intro db r h1 _
    exact ⟨r, h1, by simp, rfl, rfl, rfl, by simp [runVisits]⟩
  | cons e rest ih =>
    intro db r h1 h2
    have hlive : ¬ r.expiry_at < e.1 := h2 e (List.mem_cons_self e rest)
    have hstep : (resolveAndRecord db e.1 raw e.2 false false).2 =
        insertVisit (updateOnVisit db raw e.1) raw e.1 e.2.ip e.2.userAgent
          e.2.referrer := by
      simp [resolveAndRecord, hnorm, h1, hlive]
    have hfind2 : findByCode ((resolveAndRecord db e.1 raw e.2 false false).2)
        raw = some (bumpRecord e.1 r) := by
      rw [hstep, findByCode_insertVisit, findByCode_updateOnVisit, h1]
      rfl
    have hrest : ∀ f ∈ rest, ¬ (bumpRecord e.1 r).expiry_at < f.1 := by
      intro f hf
      exact h2 f (List.mem_cons_of_mem e hf)
    obtain ⟨r2, hN1, hN2, hN3, hN4, hN5, hN6⟩ :=
      ih ((resolveAndRecord db e.1 raw e.2 false false).2) (bumpRecord e.1 r)
        hfind2 hrest
    refine ⟨r2, ?_, ?_, ?_, ?_, ?_, ?_⟩
    · simpa [runVisits] using hN1
    · rw [List.length_cons]
      simp only [bumpRecord] at hN2
      omega
    · rw [hN3]
      rfl
    · rw [hN4]
      rfl
    · rw [hN5]
      rfl
    · show getVisits (runVisits ((resolveAndRecord db e.1 raw e.2
        false false).2) raw rest) raw = _
      rw [hN6, hstep, getVisits_insertVisit_self, getVisits_updateOnVisit]
      rw [List.append_assoc, List.singleton_append, List.map_cons]

/-- C7: starting from a freshly created record (clicks 0, empty ledger),
after `N` successful redirects the stats route reports `totalClicks = N` and
`uniqueVisitors` equal to the number of distinct non-null IPs among those
`N` requests. -/
theorem C7_stats_counts (db : DB) (code : String) (r : LinkRecord)
    (reqs : List (Time × VisitCtx)) (s : StatsSummary)
    (hnorm : normalizeCode (some code) = code)
    (hfind : findByCode db code = some r)
    (hclicks : r.clicks = 0)
    (hvis : getVisits db code = [])
    (hlive : ∀ e ∈ reqs, ¬ r.expiry_at < e.1)
    (hstats : getStats (runVisits db code reqs) code = some s) :
    s.totalClicks = reqs.length ∧
    s.uniqueVisitors = (reqs.filterMap (fun e => e.2.ip)).dedup.length := by
  obtain ⟨r2, h1, h2, _, _, _, h6⟩ :=
    runVisits_spec code hnorm reqs db r hfind hlive
  simp only [getStats, hnorm] at hstats
  rw [h1] at hstats
  simp only [Option.some.injEq] at hstats
  rw [← hstats]
  constructor
  · simpa [hclicks] using h2
  · show countUniqueIPs (runVisits db code reqs) code = _
    unfold countUniqueIPs
    rw [h6, hvis]
    rw [List.nil_append, List.filterMap_map]
    rfl

/-- Concrete database for the C7 witness: one fresh record. -/
def dbC7 : DB := ⟨[⟨"wxyz", "https://example.com/a", 0, 3600000, none, 0⟩], []⟩

/-- Three redirect requests from two distinct IPs for the C7 witness. -/
def reqsC7 : List (Time × VisitCtx) :=
  [(10, ⟨some "1.1.1.1", none, none⟩),
   (20, ⟨some "1.1.1.1", some "UA", none⟩),
   (30, ⟨some "2.2.2.2", none, some "ref"⟩)]

/-- The stats body the C7 witness observes: 3 clicks, 2 unique visitors. -/
def statsC7 : StatsSummary :=
  ⟨"wxyz", "https://example.com/a", 0, 3600000, 3, 2,
   [⟨"wxyz", 10, some "1.1.1.1", none, none⟩,
    ⟨"wxyz", 20, some "1.1.1.1", some "UA", none⟩,
    ⟨"wxyz", 30, some "2.2.2.2", none, some "ref"⟩]⟩

/-- Witness for C7 on the concrete run. -/
theorem C7_stats_counts_witness :
    normalizeCode (some "wxyz") = "wxyz" ∧
    findByCode dbC7 "wxyz" =
      some ⟨"wxyz", "https://example.com/a", 0, 3600000, none, 0⟩ ∧
    getVisits dbC7 "wxyz" = [] ∧
    (∀ e ∈ reqsC7, ¬ (3600000 : Time) < e.1) ∧
    getStats (runVisits dbC7 "wxyz" reqsC7) "wxyz" = some statsC7 ∧
    statsC7.totalClicks = reqsC7.length ∧
    statsC7.uniqueVisitors =
      (reqsC7.filterMap (fun e => e.2.ip)).dedup.length :=
  ⟨by decide, by decide, by decide, by decide, by decide,
   (C7_stats_counts dbC7 "wxyz"
      ⟨"wxyz", "https://example.com/a", 0, 3600000, none, 0⟩ reqsC7 statsC7
      (by decide) (by decide) (by decide) (by decide) (by decide)
      (by decide)).1,
   (C7_stats_counts dbC7 "wxyz"
      ⟨"wxyz", "https://example.com/a", 0, 3600000, none, 0⟩ reqsC7 statsC7
      (by decide) (by decide) (by decide) (by decide) (by decide)
      (by decide)).2⟩

end UrlShortener
